import Mathlib

/-!
Verification of `auth0_import_export.py`: a shallow embedding of the record
reconciliation pipeline (indexing, field normalization, credential join,
anomaly accumulation) together with a model of the NDJSON validity check.

Python dictionaries are embedded as insertion-ordered association lists with
unique keys; `dict.pop`, `dict.get`, and item assignment are embedded with
their CPython semantics (assignment updates in place when the key exists,
otherwise appends; `pop` without a default raises `KeyError`).  Fallible
Python code is embedded with `Except`; scalar JSON values suffice for every
record field the program touches.
-/

set_option autoImplicit false

namespace Auth0

/-- Scalar JSON value: the value space of every record field that the
program reads or writes. -/
inductive Val where
  | null
  | bool (b : Bool)
  | num (n : Int)
  | str (s : String)
deriving DecidableEq, Repr

/-- Python exceptions that the embedded code can raise. -/
inductive PyErr where
  | keyError (k : String)
  | stopIteration
  | attributeError
deriving DecidableEq, Repr

/-- A Python dict with string keys, as an insertion-ordered association list. -/
abbrev Dict := List (String × Val)

/-- Lookup: `d[k]` / `d.get(k)` returning the value stored under `k`. -/
def dget (k : String) : Dict → Option Val
  | [] => none
  | (k', v) :: rest => if k' = k then some v else dget k rest

/-- Item assignment `d[k] = v`: updates in place when `k` is present,
otherwise appends at the end (CPython insertion-order semantics). -/
def dset (k : String) (v : Val) : Dict → Dict
  | [] => [(k, v)]
  | (k', w) :: rest => if k' = k then (k', v) :: rest else (k', w) :: dset k v rest

/-- Removal of the entry stored under `k` (keys are unique in a real dict). -/
def derase (k : String) : Dict → Dict
  | [] => []
  | (k', w) :: rest => if k' = k then rest else (k', w) :: derase k rest

/-- Python `d.pop(k)` without a default: returns the value and the dict
without the key, or fails (a `KeyError`) when the key is absent. -/
def dpop (k : String) (d : Dict) : Option (Val × Dict) :=
  match dget k d with
  | some v => some (v, derase k d)
  | none => none

/-- Python `d.pop(k, None)`: like `dpop` but yielding `None` when absent. -/
def dpopD (k : String) (d : Dict) : Val × Dict :=
  match dpop k d with
  | some (v, d') => (v, d')
  | none => (.null, d)

/-- Python truthiness of the scalar values (`if given_name:` etc.). -/
def truthy : Val → Bool
  | .null => false
  | .bool b => b
  | .num n => n ≠ 0
  | .str s => s ≠ ""

/-- Embedding of lines 143-146: `user_id[6:]` when `user_id.startswith('auth0|')`,
the identifier unchanged otherwise. -/
def strip_auth0_id (s : String) : String :=
  if "auth0|".data.isPrefixOf s.data then String.mk (s.data.drop 6) else s

/-- Embedding of the optional-field pattern of lines 133-138: pop `src` with
default `None`, and store it under `dst` only when the popped value is truthy. -/
def pop_optional (src dst : String) (u : Dict) : Dict :=
  if truthy (dpopD src u).1 then dset dst (dpopD src u).1 (dpopD src u).2
  else (dpopD src u).2

/-- Embedding of the field normalization block, lines 130-146 of the source:
rename `Email`/`Email Verified`/`Name` (and the optional, truthiness-guarded
`Given Name`/`Family Name`) to their lower-cased output names, copy
`Connection` into `connection` via `dict.get` (the intermediate dict `u8` of
the source appears twice below because `user_info` is read again on line 140
after the `name` assignment), and derive `id` from `Id` by stripping the
`auth0|` provider tag.  Raises `KeyError` exactly where the Python `pop`
calls do, and `AttributeError` when `Id` is not a string (`.startswith` on a
non-string). -/
def normalize_user (user_info : Dict) : Except PyErr Dict :=
  match dpop "Email" user_info with
  | none => .error (.keyError "Email")
  | some (email, u1) =>
    match dpop "Email Verified" (dset "email" email u1) with
    | none => .error (.keyError "Email Verified")
    | some (ev, u3) =>
      match dpop "Name" (pop_optional "Family Name" "family_name"
          (pop_optional "Given Name" "given_name" (dset "email_verified" ev u3))) with
      | none => .error (.keyError "Name")
      | some (name, u7) =>
        match dpop "Id" (dset "connection"
            ((dget "Connection" (dset "name" name u7)).getD .null) (dset "name" name u7)) with
        | none => .error (.keyError "Id")
        | some (idv, u10) =>
          match idv with
          | .str s => .ok (dset "id" (.str (strip_auth0_id s)) u10)
          | _ => .error .attributeError

/-- An index from identity key to record: the embedding of the dicts built by
`get_user_info_by_email` and `get_password_hashes_by_email`, in insertion
order.  Keys are JSON values (the value stored under the key field). -/
abbrev Index := List (Val × Dict)

/-- Lookup in an index (`password_hashes_by_email[email]`). -/
def ilookup (k : Val) : Index → Option Dict
  | [] => none
  | (k', r) :: rest => if k' = k then some r else ilookup k rest

/-- Insertion into an index with CPython dict semantics: an existing key keeps
its position and gets the new record (last-wins), a new key goes at the end. -/
def iinsert (k : Val) (r : Dict) : Index → Index
  | [] => [(k, r)]
  | (k', r') :: rest => if k' = k then (k', r) :: rest else (k', r') :: iinsert k r rest

/-- Indexing loop shared by lines 82-86 and 97-101: insert each record keyed
by its `key` field, raising `KeyError` at the first record missing it. -/
def index_records (key : String) (acc : Index) : List Dict → Except PyErr Index
  | [] => .ok acc
  | r :: rest =>
    match dget key r with
    | none => .error (.keyError key)
    | some kv => index_records key (iinsert kv r acc) rest

/-- Embedding of `get_user_info_by_email` from the point where the profile
lines are already parsed into records (file decoding and the NDJSON validity
check are upstream of this step). -/
def get_user_info_by_email (records : List Dict) : Except PyErr Index :=
  index_records "Email" [] records

/-- Embedding of `get_password_hashes_by_email` from parsed records. -/
def get_password_hashes_by_email (records : List Dict) : Except PyErr Index :=
  index_records "email" [] records

/-- Embedding of `get_auth0_db_name`, lines 106-109: the `connection` field of
the first entry of the credential index; `next(iter(...))` raises
`StopIteration` on an empty index. -/
def get_auth0_db_name (password_hashes_by_email : Index) : Except PyErr Val :=
  match password_hashes_by_email with
  | [] => .error .stopIteration
  | (_, a_hash_entry) :: _ =>
    match dget "connection" a_hash_entry with
    | none => .error (.keyError "connection")
    | some v => .ok v

/-- One iteration of the reconciliation loop, lines 129-166: normalize the
record, then when its `Connection` equals the database name either attach the
credential's `passwordHash` as `password_hash` or (when the identity has no
credential) emit the record unhashed and flag the identity; records with any
other `Connection` contribute nothing.  The result carries the optional
output record and the optional missing-credential identity. -/
def process_user (database_name : Val) (hashIdx : Index) (email : Val)
    (user_info : Dict) : Except PyErr (Option Dict × Option Val) :=
  match normalize_user user_info with
  | .error e => .error e
  | .ok u =>
    match dget "Connection" u with
    | none => .error (.keyError "Connection")
    | some conn =>
      if conn = database_name then
        match ilookup email hashIdx with
        | some password_hash_info =>
          match dget "passwordHash" password_hash_info with
          | none => .error (.keyError "passwordHash")
          | some ph => .ok (some (dset "password_hash" ph u), none)
        | none => .ok (some u, some email)
      else .ok (none, none)

/-- The reconciliation loop over the profile index in iteration order,
accumulating the output list and the missing-credential identity list; the
first raised exception aborts the whole loop, as in Python. -/
def reconcile (database_name : Val) (hashIdx : Index) :
    Index → Except PyErr (List Dict × List Val)
  | [] => .ok ([], [])
  | (email, user_info) :: rest =>
    match process_user database_name hashIdx email user_info with
    | .error e => .error e
    | .ok (orec, omiss) =>
      match reconcile database_name hashIdx rest with
      | .error e => .error e
      | .ok (out, miss) => .ok (orec.toList ++ out, omiss.toList ++ miss)

/-- Observable outcome of one run of `create_auth0_import`: the early
`exit(0)` path that prints nothing on stdout, a crash by uncaught exception,
or completion with the output list (printed as JSON) and the
missing-credential diagnostic list (printed to stderr). -/
inductive RunResult where
  | noUsersExit
  | crashed (e : PyErr)
  | completed (output : List Dict) (missing : List Val)
deriving DecidableEq, Repr

/-- Embedding of `create_auth0_import`, lines 112-174, from the point where
both input files are decoded, validated and parsed into record lists.  Note
line 118 of the source re-checks `user_info_by_email` (not the hash index)
before inferring the database name; the embedding reproduces that check
verbatim. -/
def create_auth0_import (userRecords hashRecords : List Dict) : RunResult :=
  match get_user_info_by_email userRecords with
  | .error e => .crashed e
  | .ok user_info_by_email =>
    if user_info_by_email.isEmpty then .noUsersExit
    else
      match get_password_hashes_by_email hashRecords with
      | .error e => .crashed e
      | .ok password_hashes_by_email =>
        if user_info_by_email.isEmpty then .noUsersExit
        else
          match get_auth0_db_name password_hashes_by_email with
          | .error e => .crashed e
          | .ok database_name =>
            match reconcile database_name password_hashes_by_email user_info_by_email with
            | .error e => .crashed e
            | .ok (output, missing) => .completed output missing

/-- Full JSON value, for the model of `json.loads`. -/
inductive Json where
  | null
  | bool (b : Bool)
  | num (n : Int)
  | str (s : String)
  | arr (elems : List Json)
  | obj (fields : List (String × Json))

/-- Opening brace character. -/
def lbrace : Char := Char.ofNat 123

/-- Closing brace character. -/
def rbrace : Char := Char.ofNat 125

/-- JSON insignificant whitespace, skipped between tokens. -/
def skipWs (cs : List Char) : List Char :=
  cs.dropWhile (fun c => c == ' ' || c == '\t' || c == '\n' || c == '\r')

/-- JSON string body after the opening quote; escape sequences are outside the
modelled fragment (the parser rejects them). -/
def parseStringLit : List Char → Option (String × List Char)
  | [] => none
  | c :: rest =>
    if c == '"' then some ("", rest)
    else if c == '\\' then none
    else
      match parseStringLit rest with
      | some (s, r) => some (String.mk (c :: s.data), r)
      | none => none

/-- Digit run folded into a natural number, returning the rest of the input. -/
def parseNat : Nat → List Char → Nat × List Char
  | acc, [] => (acc, [])
  | acc, c :: rest =>
    if c.isDigit then parseNat (acc * 10 + (c.toNat - 48)) rest else (acc, c :: rest)

/-- JSON number restricted to optionally-signed integers (the only numbers in
the inputs this development evaluates). -/
def parseNumber : List Char → Option (Json × List Char)
  | [] => none
  | c :: rest =>
    if c == '-' then
      match rest with
      | d :: _ =>
        if d.isDigit then
          match parseNat 0 rest with
          | (n, r) => some (.num (-(n : Int)), r)
        else none
      | [] => none
    else if c.isDigit then
      match parseNat 0 (c :: rest) with
      | (n, r) => some (.num (n : Int), r)
    else none

mutual

/-- Modelled from the spec: recursive-descent parse of one JSON value with a
fuel bound, the core of Python's `json.loads` (an external library the source
calls at lines 47, 84 and 99). -/
def parseValue : Nat → List Char → Option (Json × List Char)
  | 0, _ => none
  | f + 1, cs =>
    match skipWs cs with
    | [] => none
    | c :: rest =>
      if c == lbrace then parseObjBody f rest
      else if c == '[' then parseArrBody f rest
      else if c == '"' then
        match parseStringLit rest with
        | some (s, r) => some (.str s, r)
        | none => none
      else if "true".data.isPrefixOf (c :: rest) then some (.bool true, (c :: rest).drop 4)
      else if "false".data.isPrefixOf (c :: rest) then some (.bool false, (c :: rest).drop 5)
      else if "null".data.isPrefixOf (c :: rest) then some (.null, (c :: rest).drop 4)
      else parseNumber (c :: rest)

/-- Object body after the opening brace. -/
def parseObjBody : Nat → List Char → Option (Json × List Char)
  | 0, _ => none
  | f + 1, cs =>
    match skipWs cs with
    | [] => none
    | c :: rest =>
      if c == rbrace then some (.obj [], rest)
      else
        match parseMembers f (c :: rest) with
        | some (ms, r) => some (.obj ms, r)
        | none => none

/-- One or more `"key": value` members up to and including the closing brace. -/
def parseMembers : Nat → List Char → Option (List (String × Json) × List Char)
  | 0, _ => none
  | f + 1, cs =>
    match skipWs cs with
    | [] => none
    | c :: rest =>
      if c == '"' then
        match parseStringLit rest with
        | some (k, r1) =>
          match skipWs r1 with
          | c2 :: r2 =>
            if c2 == ':' then
              match parseValue f r2 with
              | some (v, r3) =>
                match skipWs r3 with
                | c3 :: r4 =>
                  if c3 == rbrace then some ([(k, v)], r4)
                  else if c3 == ',' then
                    match parseMembers f r4 with
                    | some (ms, r5) => some ((k, v) :: ms, r5)
                    | none => none
                  else none
                | [] => none
              | none => none
            else none
          | [] => none
        | none => none
      else none

/-- Array body after the opening bracket. -/
def parseArrBody : Nat → List Char → Option (Json × List Char)
  | 0, _ => none
  | f + 1, cs =>
    match skipWs cs with
    | [] => none
    | c :: rest =>
      if c == ']' then some (.arr [], rest)
      else
        match parseElems f (c :: rest) with
        | some (vs, r) => some (.arr vs, r)
        | none => none

/-- One or more array elements up to and including the closing bracket. -/
def parseElems : Nat → List Char → Option (List Json × List Char)
  | 0, _ => none
  | f + 1, cs =>
    match parseValue f cs with
    | some (v, r) =>
      match skipWs r with
      | c :: r2 =>
        if c == ']' then some ([v], r2)
        else if c == ',' then
          match parseElems f r2 with
          | some (vs, r3) => some (v :: vs, r3)
          | none => none
        else none
      | [] => none
    | none => none

end

/-- Modelled from the spec: Python's `json.loads` on a string — parse exactly
one JSON value and reject trailing non-whitespace (the `Extra data` error). -/
def json_loads (s : String) : Option Json :=
  match parseValue (s.length + 1) s.data with
  | some (v, rest) => if (skipWs rest).isEmpty then some v else none
  | none => none

/-- Embedding of `verify_valid_ndjson_lines`, lines 44-50: join all lines with
commas inside square brackets and report whether the aggregate parses. -/
def verify_valid_ndjson_lines (ndjson_lines : List String) : Bool :=
  (json_loads ("[" ++ String.intercalate "," ndjson_lines ++ "]")).isSome

/-- Process exit status of a run: `exit(0)` on the empty-input path and on
completion, status 1 for a run killed by an uncaught exception. -/
def exit_code : RunResult → Int
  | .noUsersExit => 0
  | .crashed _ => 1
  | .completed _ _ => 0

/-- What a run prints on the primary output channel (stdout): the JSON array
of output records at line 169 on completion, nothing on the early-exit and
crash paths. -/
def primary_output : RunResult → Option (List Dict)
  | .completed out _ => some out
  | _ => none

/-! Basic lemmas about the dict operations. -/

theorem dget_dset (k k' : String) (v : Val) (d : Dict) :
    dget k (dset k' v d) = if k' = k then some v else dget k d := by
  induction d with
  | nil =>
    by_cases h : k' = k
    · subst h; simp [dget, dset]
    · simp [dget, dset, h]
  | cons p rest ih =>
    obtain ⟨k'', w⟩ := p
    by_cases h1 : k'' = k'
    · subst h1
      by_cases h2 : k'' = k
      · subst h2; simp [dget, dset]
      · simp [dget, dset, h2]
    · by_cases h2 : k'' = k
      · subst h2
        have h1' : ¬ k' = k'' := fun hh => h1 hh.symm
        simp [dget, dset, h1, h1', ih]
      · simp [dget, dset, h1, h2, ih]

theorem dget_derase_ne {k' k : String} (h : k' ≠ k) (d : Dict) :
    dget k (derase k' d) = dget k d := by
  induction d with
  | nil => rfl
  | cons p rest ih =>
    obtain ⟨k'', w⟩ := p
    by_cases h1 : k'' = k'
    · subst h1; simp [derase, dget, h]
    · by_cases h2 : k'' = k
      · subst h2; simp [derase, dget, h1]
      · simp [derase, dget, h1, h2, ih]

theorem dpop_eq_some {k : String} {d : Dict} {v : Val} {d' : Dict}
    (h : dpop k d = some (v, d')) : dget k d = some v ∧ d' = derase k d := by
  unfold dpop at h
  cases hg : dget k d with
  | none => rw [hg] at h; simp at h
  | some w =>
    rw [hg] at h
    simp at h
    exact ⟨congrArg some h.1, h.2.symm⟩

theorem dget_dpopD_snd {k' k : String} (h : k' ≠ k) (d : Dict) :
    dget k (dpopD k' d).2 = dget k d := by
  unfold dpopD dpop
  cases hg : dget k' d <;> simp [dget_derase_ne h]

theorem dget_pop_optional {src dst k : String} (hs : src ≠ k) (hd : dst ≠ k) (u : Dict) :
    dget k (pop_optional src dst u) = dget k u := by
  unfold pop_optional
  split
  · rw [dget_dset]
    simp [hd, dget_dpopD_snd hs]
  · exact dget_dpopD_snd hs u

/-- Elimination principle for a successful run of `normalize_user`: the exact
chain of pops and assignments that produced the normalized record. -/
theorem normalize_user_ok {u nu : Dict} (h : normalize_user u = .ok nu) :
    ∃ (email : Val) (u1 : Dict) (ev : Val) (u3 : Dict) (name : Val) (u7 : Dict)
      (s : String) (u10 : Dict),
      dpop "Email" u = some (email, u1) ∧
      dpop "Email Verified" (dset "email" email u1) = some (ev, u3) ∧
      dpop "Name" (pop_optional "Family Name" "family_name"
        (pop_optional "Given Name" "given_name" (dset "email_verified" ev u3))) =
          some (name, u7) ∧
      dpop "Id" (dset "connection" ((dget "Connection" (dset "name" name u7)).getD .null)
        (dset "name" name u7)) = some (.str s, u10) ∧
      nu = dset "id" (.str (strip_auth0_id s)) u10 := by
  unfold normalize_user at h
  split at h
  · exact absurd h (by simp)
  · rename_i email u1 hE
    split at h
    · exact absurd h (by simp)
    · rename_i ev u3 hEV
      split at h
      · exact absurd h (by simp)
      · rename_i name u7 hN
        split at h
        · exact absurd h (by simp)
        · rename_i idv u10 hI
          split at h
          · rename_i s
            simp only [Except.ok.injEq] at h
            exact ⟨email, u1, ev, u3, name, u7, s, u10, hE, hEV, hN, hI, h.symm⟩
          · exact absurd h (by simp)

/-! Field-level consequences of a successful `normalize_user`. -/

/-- Normalization never touches the capitalized `Connection` key: line 140
reads it with `dict.get` instead of popping it. -/
theorem normalize_preserves_Connection {u nu : Dict} (h : normalize_user u = .ok nu) :
    dget "Connection" nu = dget "Connection" u := by
  obtain ⟨email, u1, ev, u3, name, u7, s, u10, hE, hEV, hN, hI, hnu⟩ := normalize_user_ok h
  obtain ⟨hE1, hE2⟩ := dpop_eq_some hE
  obtain ⟨hEV1, hEV2⟩ := dpop_eq_some hEV
  obtain ⟨hN1, hN2⟩ := dpop_eq_some hN
  obtain ⟨hI1, hI2⟩ := dpop_eq_some hI
  subst hnu hI2 hN2 hEV2 hE2
  simp [dget_dset, dget_derase_ne, dget_pop_optional]

/-- Normalization neither adds nor removes a `password_hash` key. -/
theorem normalize_preserves_password_hash {u nu : Dict} (h : normalize_user u = .ok nu) :
    dget "password_hash" nu = dget "password_hash" u := by
  obtain ⟨email, u1, ev, u3, name, u7, s, u10, hE, hEV, hN, hI, hnu⟩ := normalize_user_ok h
  obtain ⟨hE1, hE2⟩ := dpop_eq_some hE
  obtain ⟨hEV1, hEV2⟩ := dpop_eq_some hEV
  obtain ⟨hN1, hN2⟩ := dpop_eq_some hN
  obtain ⟨hI1, hI2⟩ := dpop_eq_some hI
  subst hnu hI2 hN2 hEV2 hE2
  simp [dget_dset, dget_derase_ne, dget_pop_optional]

/-- The lower-cased `email` field of a normalized record is the `Email` value
of the source record. -/
theorem normalize_email_field {u nu : Dict} (h : normalize_user u = .ok nu) :
    dget "email" nu = dget "Email" u := by
  obtain ⟨email, u1, ev, u3, name, u7, s, u10, hE, hEV, hN, hI, hnu⟩ := normalize_user_ok h
  obtain ⟨hE1, hE2⟩ := dpop_eq_some hE
  obtain ⟨hEV1, hEV2⟩ := dpop_eq_some hEV
  obtain ⟨hN1, hN2⟩ := dpop_eq_some hN
  obtain ⟨hI1, hI2⟩ := dpop_eq_some hI
  subst hnu hI2 hN2 hEV2 hE2
  simp [dget_dset, dget_derase_ne, dget_pop_optional, hE1]

/-- The lower-cased `connection` field of a normalized record is a copy of the
source record's `Connection` value (line 140; `None` when absent). -/
theorem normalize_connection_field {u nu : Dict} (h : normalize_user u = .ok nu) :
    dget "connection" nu = some ((dget "Connection" u).getD .null) := by
  obtain ⟨email, u1, ev, u3, name, u7, s, u10, hE, hEV, hN, hI, hnu⟩ := normalize_user_ok h
  obtain ⟨hE1, hE2⟩ := dpop_eq_some hE
  obtain ⟨hEV1, hEV2⟩ := dpop_eq_some hEV
  obtain ⟨hN1, hN2⟩ := dpop_eq_some hN
  obtain ⟨hI1, hI2⟩ := dpop_eq_some hI
  subst hnu hI2 hN2 hEV2 hE2
  simp [dget_dset, dget_derase_ne, dget_pop_optional]

/-- The `id` field of a normalized record is the source record's `Id` value
with the `auth0|` tag stripped. -/
theorem normalize_id_field {u nu : Dict} {s : String} (h : normalize_user u = .ok nu)
    (hid : dget "Id" u = some (.str s)) :
    dget "id" nu = some (.str (strip_auth0_id s)) := by
  obtain ⟨email, u1, ev, u3, name, u7, s', u10, hE, hEV, hN, hI, hnu⟩ := normalize_user_ok h
  obtain ⟨hE1, hE2⟩ := dpop_eq_some hE
  obtain ⟨hEV1, hEV2⟩ := dpop_eq_some hEV
  obtain ⟨hN1, hN2⟩ := dpop_eq_some hN
  obtain ⟨hI1, hI2⟩ := dpop_eq_some hI
  subst hnu hI2 hN2 hEV2 hE2
  rw [dget_dset] at hI1
  simp [dget_derase_ne, dget_pop_optional, dget_dset] at hI1
  rw [hid] at hI1
  simp at hI1
  simp [dget_dset, hI1]

/-- Normalization of a record without the capitalized `Email` key — in
particular of any record already in the output shape — fails at once with the
`KeyError` of line 131's `pop`. -/
theorem normalize_user_noEmail {d : Dict} (h : dget "Email" d = none) :
    normalize_user d = .error (.keyError "Email") := by
  simp [normalize_user, dpop, h]

/-! Per-iteration facts about `process_user`. -/

/-- Elimination for an iteration that emitted a record: the record is the
normalized profile with `Connection` equal to the database name, either
carrying the credential's hash or unhashed-and-flagged. -/
theorem process_user_ok_some {db : Val} {hIdx : Index} {e : Val} {u r : Dict} {m : Option Val}
    (h : process_user db hIdx e u = .ok (some r, m)) :
    ∃ nu, normalize_user u = .ok nu ∧ dget "Connection" nu = some db ∧
      ((∃ hinfo ph, ilookup e hIdx = some hinfo ∧ dget "passwordHash" hinfo = some ph ∧
         r = dset "password_hash" ph nu ∧ m = none) ∨
       (ilookup e hIdx = none ∧ r = nu ∧ m = some e)) := by
  unfold process_user at h
  split at h
  · exact absurd h (by simp)
  · rename_i nu hnorm
    split at h
    · exact absurd h (by simp)
    · rename_i conn hconn
      split at h
      · rename_i hcd
        split at h
        · rename_i hinfo hlook
          split at h
          · exact absurd h (by simp)
          · rename_i ph hph
            simp at h
            exact ⟨nu, hnorm, hcd ▸ hconn, .inl ⟨hinfo, ph, hlook, hph, h.1.symm, h.2.symm⟩⟩
        · rename_i hlook
          simp at h
          exact ⟨nu, hnorm, hcd ▸ hconn, .inr ⟨hlook, h.1.symm, h.2.symm⟩⟩
      · exact absurd h (by simp)

/-- Elimination for an iteration that flagged an identity: the flagged
identity is the entry's own key, its connection matched, and its credential
lookup failed — and the record was still emitted. -/
theorem process_user_miss_some {db : Val} {hIdx : Index} {e : Val} {u : Dict}
    {o : Option Dict} {x : Val}
    (h : process_user db hIdx e u = .ok (o, some x)) :
    x = e ∧ ∃ nu, normalize_user u = .ok nu ∧ dget "Connection" nu = some db ∧
      ilookup e hIdx = none ∧ o = some nu := by
  unfold process_user at h
  split at h
  · exact absurd h (by simp)
  · rename_i nu hnorm
    split at h
    · exact absurd h (by simp)
    · rename_i conn hconn
      split at h
      · rename_i hcd
        split at h
        · rename_i hinfo hlook
          split at h
          · exact absurd h (by simp)
          · rename_i ph hph
            simp at h
        · rename_i hlook
          simp at h
          exact ⟨h.2.symm, nu, hnorm, hcd ▸ hconn, hlook, h.1.symm⟩
      · exact absurd h (by simp)

/-- Computation of an iteration whose identity has a credential. -/
theorem process_user_hit {db : Val} {hIdx : Index} {e : Val} {u nu hinfo : Dict} {ph : Val}
    (hnorm : normalize_user u = .ok nu) (hconn : dget "Connection" nu = some db)
    (hlook : ilookup e hIdx = some hinfo) (hph : dget "passwordHash" hinfo = some ph) :
    process_user db hIdx e u = .ok (some (dset "password_hash" ph nu), none) := by
  simp [process_user, hnorm, hconn, hlook, hph]

/-- Computation of an iteration whose identity has no credential. -/
theorem process_user_missing {db : Val} {hIdx : Index} {e : Val} {u nu : Dict}
    (hnorm : normalize_user u = .ok nu) (hconn : dget "Connection" nu = some db)
    (hlook : ilookup e hIdx = none) :
    process_user db hIdx e u = .ok (some nu, some e) := by
  simp [process_user, hnorm, hconn, hlook]

/-- Computation of an iteration whose connection is not the database name. -/
theorem process_user_skip {db : Val} {hIdx : Index} {e : Val} {u nu : Dict} {c : Val}
    (hnorm : normalize_user u = .ok nu) (hconn : dget "Connection" nu = some c)
    (hne : c ≠ db) :
    process_user db hIdx e u = .ok (none, none) := by
  simp [process_user, hnorm, hconn, hne]

/-! Characterization of the reconciliation loop. -/

/-- Output-record contribution of one loop iteration. -/
def step_out (r : Except PyErr (Option Dict × Option Val)) : Option Dict :=
  match r with
  | .ok (o, _) => o
  | .error _ => none

/-- Missing-credential contribution of one loop iteration. -/
def step_miss (r : Except PyErr (Option Dict × Option Val)) : Option Val :=
  match r with
  | .ok (_, m) => m
  | .error _ => none

/-- Successful reconciliation is the per-entry contribution map over the
profile index, and every entry was processed without an exception. -/
theorem reconcile_ok_char {db : Val} {hIdx pIdx : Index} {out : List Dict} {miss : List Val}
    (h : reconcile db hIdx pIdx = .ok (out, miss)) :
    out = pIdx.filterMap (fun p => step_out (process_user db hIdx p.1 p.2)) ∧
    miss = pIdx.filterMap (fun p => step_miss (process_user db hIdx p.1 p.2)) ∧
    ∀ p ∈ pIdx, ∃ o m, process_user db hIdx p.1 p.2 = .ok (o, m) := by
  induction pIdx generalizing out miss with
  | nil =>
    unfold reconcile at h
    simp at h
    simp [h.1, h.2]
  | cons p rest ih =>
    obtain ⟨e, u⟩ := p
    unfold reconcile at h
    cases hp : process_user db hIdx e u with
    | error err => rw [hp] at h; simp at h
    | ok om =>
      obtain ⟨o, m⟩ := om
      rw [hp] at h
      cases hr : reconcile db hIdx rest with
      | error err => rw [hr] at h; simp at h
      | ok outmiss =>
        obtain ⟨out', miss'⟩ := outmiss
        rw [hr] at h
        simp at h
        obtain ⟨ho, hm⟩ := h
        obtain ⟨ih1, ih2, ih3⟩ := ih hr
        refine ⟨?_, ?_, ?_⟩
        · rw [← ho, ih1]
          cases o <;> simp [List.filterMap_cons, hp, step_out]
        · rw [← hm, ih2]
          cases m <;> simp [List.filterMap_cons, hp, step_miss]
        · intro q hq
          rcases List.mem_cons.mp hq with hq | hq
          · exact hq ▸ ⟨o, m, hp⟩
          · exact ih3 q hq

/-- Every output record of a successful run comes from a profile-index entry
whose iteration produced it. -/
theorem reconcile_out_elim {db : Val} {hIdx pIdx : Index} {out : List Dict} {miss : List Val}
    (h : reconcile db hIdx pIdx = .ok (out, miss)) {r : Dict} (hr : r ∈ out) :
    ∃ e u m, (e, u) ∈ pIdx ∧ process_user db hIdx e u = .ok (some r, m) := by
  obtain ⟨ho, _, hall⟩ := reconcile_ok_char h
  rw [ho] at hr
  obtain ⟨⟨e, u⟩, hp, hps⟩ := List.mem_filterMap.mp hr
  obtain ⟨o, m, hom⟩ := hall (e, u) hp
  rw [hom] at hps
  simp [step_out] at hps
  exact ⟨e, u, m, hp, by rw [hom, hps]⟩

/-- Every identity in the anomaly list of a successful run is the key of a
profile-index entry whose iteration flagged it. -/
theorem reconcile_miss_elim {db : Val} {hIdx pIdx : Index} {out : List Dict} {miss : List Val}
    (h : reconcile db hIdx pIdx = .ok (out, miss)) {x : Val} (hx : x ∈ miss) :
    ∃ u o, (x, u) ∈ pIdx ∧ process_user db hIdx x u = .ok (o, some x) := by
  obtain ⟨_, hm, hall⟩ := reconcile_ok_char h
  rw [hm] at hx
  obtain ⟨⟨e, u⟩, hp, hps⟩ := List.mem_filterMap.mp hx
  obtain ⟨o, m, hom⟩ := hall (e, u) hp
  rw [hom] at hps
  simp [step_miss] at hps
  subst hps
  obtain ⟨hxe, _⟩ := process_user_miss_some hom
  subst hxe
  exact ⟨u, o, hp, hom⟩

/-- An iteration that emits a record puts that record in the output list. -/
theorem reconcile_out_intro {db : Val} {hIdx pIdx : Index} {out : List Dict} {miss : List Val}
    (h : reconcile db hIdx pIdx = .ok (out, miss)) {e : Val} {u r : Dict} {m : Option Val}
    (hmem : (e, u) ∈ pIdx) (hp : process_user db hIdx e u = .ok (some r, m)) :
    r ∈ out := by
  obtain ⟨ho, _, _⟩ := reconcile_ok_char h
  rw [ho]
  exact List.mem_filterMap.mpr ⟨(e, u), hmem, by simp [hp, step_out]⟩

/-! Counting, key uniqueness, and the invariants the indexers establish
(justifying the hypotheses of the index-level theorems below). -/

theorem index_pair_eq {l : Index} (h : (l.map Prod.fst).Nodup) {p q : Val × Dict}
    (hp : p ∈ l) (hq : q ∈ l) (hfst : p.1 = q.1) : p = q :=
  List.inj_on_of_nodup_map h hp hq hfst

theorem count_filterMap_eq_one {α β : Type} [DecidableEq α] [DecidableEq β]
    (l : List α) (f : α → Option β) (b : β) (a : α)
    (hmem : a ∈ l) (hfa : f a = some b)
    (huniq : ∀ a' ∈ l, f a' = some b → a' = a)
    (hcount : l.count a = 1) :
    (l.filterMap f).count b = 1 := by
  induction l with
  | nil => simp at hmem
  | cons x xs ih =>
    rcases List.mem_cons.mp hmem with hx | hx
    · subst hx
      rw [List.count_cons_self] at hcount
      have hnotmem : a ∉ xs := by
        rw [← List.count_eq_zero]
        omega
      rw [List.filterMap_cons, hfa, List.count_cons_self]
      have hzero : (xs.filterMap f).count b = 0 := by
        rw [List.count_eq_zero]
        intro hb
        obtain ⟨a', ha', hfa'⟩ := List.mem_filterMap.mp hb
        exact hnotmem ((huniq a' (List.mem_cons_of_mem _ ha') hfa') ▸ ha')
      omega
    · have hxa : x ≠ a := by
        intro hh
        subst hh
        rw [List.count_cons_self] at hcount
        have : x ∉ xs := by rw [← List.count_eq_zero]; omega
        exact this hx
      rw [List.count_cons_of_ne (fun hh => hxa hh.symm)] at hcount
      have huniq' : ∀ a' ∈ xs, f a' = some b → a' = a :=
        fun a' ha' hfa' => huniq a' (List.mem_cons_of_mem _ ha') hfa'
      have hfx : f x ≠ some b := fun hfx => hxa (huniq x (List.mem_cons_self x xs) hfx)
      rw [List.filterMap_cons]
      cases hcx : f x with
      | none => exact ih hx huniq' hcount
      | some b' =>
        have hbb : b ≠ b' := fun hh => hfx (hh ▸ hcx)
        rw [List.count_cons_of_ne hbb]
        exact ih hx huniq' hcount

theorem mem_iinsert {k : Val} {r : Dict} {l : Index} {p : Val × Dict}
    (h : p ∈ iinsert k r l) : p = (k, r) ∨ p ∈ l := by
  induction l with
  | nil => simp [iinsert] at h; exact .inl h
  | cons q rest ih =>
    obtain ⟨k', r'⟩ := q
    by_cases hk : k' = k
    · subst hk
      simp [iinsert] at h
      rcases h with h | h
      · exact .inl (by simp [h])
      · exact .inr (List.mem_cons_of_mem _ h)
    · simp [iinsert, hk] at h
      rcases h with h | h
      · exact .inr (by simp [h])
      · rcases ih h with h' | h'
        · exact .inl h'
        · exact .inr (List.mem_cons_of_mem _ h')

theorem map_fst_iinsert (k : Val) (r : Dict) (l : Index) :
    (iinsert k r l).map Prod.fst =
      if k ∈ l.map Prod.fst then l.map Prod.fst else l.map Prod.fst ++ [k] := by
  induction l with
  | nil => simp [iinsert]
  | cons q rest ih =>
    obtain ⟨k', r'⟩ := q
    by_cases hk : k' = k
    · subst hk
      simp [iinsert]
    · by_cases hm : k ∈ rest.map Prod.fst
      · simp [iinsert, hk, ih, hm, Ne.symm hk]
      · simp [iinsert, hk, ih, hm, Ne.symm hk]

theorem nodup_iinsert {k : Val} {r : Dict} {l : Index}
    (h : (l.map Prod.fst).Nodup) : ((iinsert k r l).map Prod.fst).Nodup := by
  rw [map_fst_iinsert]
  split
  · exact h
  · rename_i hnot
    rw [List.nodup_append]
    exact ⟨h, List.nodup_singleton k, by simpa using fun hh => hnot hh⟩

theorem keyinv_iinsert {key : String} {k : Val} {r : Dict} {l : Index}
    (hr : dget key r = some k) (h : ∀ p ∈ l, dget key p.2 = some p.1) :
    ∀ p ∈ iinsert k r l, dget key p.2 = some p.1 := by
  intro p hp
  rcases mem_iinsert hp with hp' | hp'
  · subst hp'; exact hr
  · exact h p hp'

theorem index_records_inv {key : String} {records : List Dict} {acc idx : Index}
    (hnodup : (acc.map Prod.fst).Nodup)
    (hkeys : ∀ p ∈ acc, dget key p.2 = some p.1)
    (h : index_records key acc records = .ok idx) :
    (idx.map Prod.fst).Nodup ∧ ∀ p ∈ idx, dget key p.2 = some p.1 := by
  induction records generalizing acc with
  | nil =>
    unfold index_records at h
    simp at h
    subst h
    exact ⟨hnodup, hkeys⟩
  | cons r rest ih =>
    unfold index_records at h
    cases hg : dget key r with
    | none => rw [hg] at h; simp at h
    | some kv =>
      rw [hg] at h
      exact ih (nodup_iinsert hnodup) (keyinv_iinsert hg hkeys) h

theorem get_user_info_by_email_inv {records : List Dict} {idx : Index}
    (h : get_user_info_by_email records = .ok idx) :
    (idx.map Prod.fst).Nodup ∧ ∀ p ∈ idx, dget "Email" p.2 = some p.1 :=
  index_records_inv (by simp) (by simp) h

/-! Concrete records used by the claim instances below. -/

/-- Profile record of the specification's concrete scenario. -/
def p_ax : Dict :=
  [("Email", .str "a@x.com"), ("Name", .str "A"), ("Id", .str "auth0|1"),
   ("Connection", .str "Local"), ("Email Verified", .bool true)]

/-- Credential record of the specification's concrete scenario. -/
def c_ax : Dict :=
  [("email", .str "a@x.com"), ("passwordHash", .str "h1"), ("connection", .str "Local")]

/-- Record the program actually outputs for the concrete scenario. -/
def c1_output : Dict :=
  [("Connection", .str "Local"), ("email", .str "a@x.com"), ("email_verified", .bool true),
   ("name", .str "A"), ("connection", .str "Local"), ("id", .str "1"),
   ("password_hash", .str "h1")]

/-- Normalization of `p_ax` before any credential is attached. -/
def p_ax_norm : Dict :=
  [("Connection", .str "Local"), ("email", .str "a@x.com"), ("email_verified", .bool true),
   ("name", .str "A"), ("connection", .str "Local"), ("id", .str "1")]

/-- Profile record belonging to a federated (non-local) identity provider. -/
def p_gx : Dict :=
  [("Email", .str "g@x.com"), ("Name", .str "G"), ("Id", .str "google-oauth2|xyz"),
   ("Connection", .str "google-oauth2"), ("Email Verified", .bool false)]

/-- Credential record for a different identity, fixing the local store name. -/
def c_bx : Dict :=
  [("email", .str "b@x.com"), ("passwordHash", .str "h2"), ("connection", .str "Local")]

/-- Profile record with an `auth0|abc123` identifier. -/
def p_abc : Dict :=
  [("Email", .str "e@x.com"), ("Name", .str "E"), ("Id", .str "auth0|abc123"),
   ("Connection", .str "Local"), ("Email Verified", .bool true)]

/-- Normalization of `p_abc`. -/
def p_abc_norm : Dict :=
  [("Connection", .str "Local"), ("email", .str "e@x.com"), ("email_verified", .bool true),
   ("name", .str "E"), ("connection", .str "Local"), ("id", .str "abc123")]

/-- Profile record that already carries a passthrough `password_hash` field. -/
def p_ax_evil : Dict :=
  [("Email", .str "a@x.com"), ("Name", .str "A"), ("Id", .str "auth0|1"),
   ("Connection", .str "Local"), ("Email Verified", .bool true), ("password_hash", .str "evil")]

/-- Output record the program produces from `p_ax_evil` when its credential is
missing: the passthrough hash survives normalization. -/
def evil_output : Dict :=
  [("Connection", .str "Local"), ("password_hash", .str "evil"), ("email", .str "a@x.com"),
   ("email_verified", .bool true), ("name", .str "A"), ("connection", .str "Local"),
   ("id", .str "1")]

/-! Claims. -/

/-- Claim C1, counterexample: on the specification's concrete scenario the
produced record is not limited to the six claimed keys — it also retains the
capitalized `Connection` key (line 140 copies it without popping it), so the
claimed output record with no other keys is not what the program emits. -/
theorem c1_counterexample :
    create_auth0_import [p_ax] [c_ax] = .completed [c1_output] [] ∧
    dget "Connection" c1_output = some (.str "Local") ∧
    "Connection" ∉ ["email", "email_verified", "name", "connection", "id", "password_hash"] :=
  ⟨rfl, rfl, by decide⟩

/-- Claim C1, as amended: the concrete scenario produces exactly one output
record — the six claimed fields plus the retained capitalized
`Connection: "Local"` entry — and an empty anomaly list. -/
theorem c1_concrete_scenario :
    create_auth0_import [p_ax] [c_ax] = .completed [c1_output] [] := rfl

/-- Claim C2: with a non-empty profile set and an empty credential set the
run does not terminate as a successful no-op; line 118 re-checks the profile
index instead of the hash index, so control reaches `get_auth0_db_name`,
which raises `StopIteration` on the empty dict — the run crashes with a
non-zero status and no primary output.  (The claim matches the evident intent
of the source — line 119's message names the hashes file — so this is a slip
in the code, exhibited here at a concrete failing input.) -/
theorem c2_empty_credentials_crash :
    create_auth0_import [p_ax] [] = .crashed .stopIteration ∧
    exit_code (create_auth0_import [p_ax] []) ≠ 0 ∧
    primary_output (create_auth0_import [p_ax] []) = none :=
  ⟨rfl, by decide, rfl⟩

/-- Claim C3: in a successful run over a profile index with unique keys each
holding its own `Email` value, an entry whose `Connection` differs from the
inferred local-store name contributes no output record for its identity —
regardless of credential presence — and its identity is not flagged. -/
theorem c3_exclusion_correctness {hashIdx pIdx : Index} {db : Val}
    {out : List Dict} {miss : List Val}
    (hdb : get_auth0_db_name hashIdx = .ok db)
    (hrun : reconcile db hashIdx pIdx = .ok (out, miss))
    (hnodup : (pIdx.map Prod.fst).Nodup)
    (hkeys : ∀ p ∈ pIdx, dget "Email" p.2 = some p.1)
    {e : Val} {u : Dict} (hmem : (e, u) ∈ pIdx)
    {c : Val} (hconn : dget "Connection" u = some c) (hne : c ≠ db) :
    (∀ r ∈ out, dget "email" r ≠ some e) ∧ e ∉ miss := by
  constructor
  · intro r hr heq
    obtain ⟨e', u', m, hmem', hp⟩ := reconcile_out_elim hrun hr
    obtain ⟨nu', hnorm', hconn', hcase⟩ := process_user_ok_some hp
    have hemail : dget "email" r = some e' := by
      rcases hcase with ⟨hinfo, ph, hlook, hph, hre, hm⟩ | ⟨hlook, hre, hm⟩
      · subst hre
        rw [dget_dset]
        simp only [if_neg (by decide : ¬ "password_hash" = "email")]
        rw [normalize_email_field hnorm', hkeys _ hmem']
      · subst hre
        rw [normalize_email_field hnorm', hkeys _ hmem']
    have he' : e' = e := by
      rw [hemail] at heq
      exact Option.some.inj heq
    subst he'
    have hpair : ((e', u') : Val × Dict) = (e', u) :=
      index_pair_eq hnodup hmem' hmem rfl
    have hu : u' = u := congrArg Prod.snd hpair
    subst hu
    have hcc : dget "Connection" nu' = some c := by
      rw [normalize_preserves_Connection hnorm', hconn]
    rw [hcc] at hconn'
    exact hne (Option.some.inj hconn')
  · intro hx
    obtain ⟨u', o, hmem', hp⟩ := reconcile_miss_elim hrun hx
    obtain ⟨_, nu', hnorm', hconn', hlook, ho⟩ := process_user_miss_some hp
    have hpair : ((e, u') : Val × Dict) = (e, u) :=
      index_pair_eq hnodup hmem' hmem rfl
    have hu : u' = u := congrArg Prod.snd hpair
    subst hu
    have hcc : dget "Connection" nu' = some c := by
      rw [normalize_preserves_Connection hnorm', hconn]
    rw [hcc] at hconn'
    exact hne (Option.some.inj hconn')

/-- Claim C3, witness at a concrete run: the federated `g@x.com` record is
excluded from the output and not flagged. -/
theorem c3_witness :
    (∀ r ∈ [c1_output], dget "email" r ≠ some (.str "g@x.com")) ∧
    (Val.str "g@x.com") ∉ ([] : List Val) :=
  @c3_exclusion_correctness [(.str "a@x.com", c_ax)]
    [(.str "a@x.com", p_ax), (.str "g@x.com", p_gx)] (.str "Local") [c1_output] []
    rfl rfl (by decide) (by decide) (.str "g@x.com") p_gx (by decide)
    (.str "google-oauth2") rfl (by decide)

/-- Claim C4: in a successful run, an identity present in both indexes whose
profile `Connection` equals the inferred local-store name gets an output
record whose `password_hash` is the matching credential's `passwordHash`
value, verbatim. -/
theorem c4_join_correctness {hashIdx pIdx : Index} {db : Val}
    {out : List Dict} {miss : List Val}
    (hdb : get_auth0_db_name hashIdx = .ok db)
    (hrun : reconcile db hashIdx pIdx = .ok (out, miss))
    {e : Val} {u hinfo : Dict}
    (hmem : (e, u) ∈ pIdx) (hlook : ilookup e hashIdx = some hinfo)
    (hkey : dget "Email" u = some e)
    {nu : Dict} (hnorm : normalize_user u = .ok nu)
    (hconn : dget "Connection" u = some db)
    {ph : Val} (hph : dget "passwordHash" hinfo = some ph) :
    ∃ r ∈ out, dget "email" r = some e ∧ dget "password_hash" r = some ph := by
  have hconn' : dget "Connection" nu = some db := by
    rw [normalize_preserves_Connection hnorm, hconn]
  have hp := process_user_hit hnorm hconn' hlook hph
  refine ⟨dset "password_hash" ph nu, reconcile_out_intro hrun hmem hp, ?_, ?_⟩
  · rw [dget_dset]
    simp only [if_neg (by decide : ¬ "password_hash" = "email")]
    rw [normalize_email_field hnorm, hkey]
  · rw [dget_dset]
    simp

/-- Claim C4, witness at the concrete scenario: the joined record carries the
credential's hash value verbatim. -/
theorem c4_witness :
    ∃ r ∈ [c1_output], dget "email" r = some (.str "a@x.com") ∧
      dget "password_hash" r = some (.str "h1") :=
  @c4_join_correctness [(.str "a@x.com", c_ax)] [(.str "a@x.com", p_ax)] (.str "Local")
    [c1_output] [] rfl rfl (.str "a@x.com") p_ax c_ax (by decide) rfl rfl
    p_ax_norm rfl rfl (.str "h1") rfl

/-- Claim C5, counterexample: a local-store profile record that already
carries a passthrough `password_hash` field and has no credential entry is
flagged and emitted — but its output record does have a `password_hash`
field (normalization never removes one that came in with the profile), so
the claim's "no password_hash field" part fails as stated. -/
theorem c5_counterexample :
    create_auth0_import [p_ax_evil] [c_bx] = .completed [evil_output] [.str "a@x.com"] ∧
    dget "password_hash" evil_output = some (.str "evil") :=
  ⟨rfl, rfl⟩

/-- Claim C5, as amended: in a successful run over a profile index with
unique keys, a local-store identity absent from the credential index — whose
profile record does not itself carry a `password_hash` field — appears
exactly once in the anomaly list, its normalized record is still emitted
(never dropped), and that record has no `password_hash` field. -/
theorem c5_missing_credential {hashIdx pIdx : Index} {db : Val}
    {out : List Dict} {miss : List Val}
    (hdb : get_auth0_db_name hashIdx = .ok db)
    (hrun : reconcile db hashIdx pIdx = .ok (out, miss))
    (hnodup : (pIdx.map Prod.fst).Nodup)
    {e : Val} {u : Dict} (hmem : (e, u) ∈ pIdx)
    {nu : Dict} (hnorm : normalize_user u = .ok nu)
    (hconn : dget "Connection" u = some db)
    (hlook : ilookup e hashIdx = none)
    (hnoph : dget "password_hash" u = none) :
    miss.count e = 1 ∧ nu ∈ out ∧ dget "password_hash" nu = none := by
  have hconn' : dget "Connection" nu = some db := by
    rw [normalize_preserves_Connection hnorm, hconn]
  have hp := process_user_missing hnorm hconn' hlook
  refine ⟨?_, reconcile_out_intro hrun hmem hp,
    by rw [normalize_preserves_password_hash hnorm, hnoph]⟩
  obtain ⟨_, hmiss_eq, hall⟩ := reconcile_ok_char hrun
  rw [hmiss_eq]
  apply count_filterMap_eq_one pIdx _ e (e, u) hmem
  · simp [hp, step_miss]
  · intro p' hp' hfp'
    obtain ⟨o', m', hom'⟩ := hall p' hp'
    rw [hom'] at hfp'
    simp [step_miss] at hfp'
    subst hfp'
    obtain ⟨hxe, _⟩ := process_user_miss_some hom'
    exact index_pair_eq hnodup hp' hmem (by simpa using hxe.symm)
  · exact List.count_eq_one_of_mem (List.Nodup.of_map _ hnodup) hmem

/-- Claim C5, witness at a concrete run: `a@x.com` has no credential, is
flagged exactly once, and its emitted record has no hash. -/
theorem c5_witness :
    ([Val.str "a@x.com"] : List Val).count (.str "a@x.com") = 1 ∧
    p_ax_norm ∈ [p_ax_norm] ∧ dget "password_hash" p_ax_norm = none :=
  @c5_missing_credential [(.str "b@x.com", c_bx)] [(.str "a@x.com", p_ax)] (.str "Local")
    [p_ax_norm] [Val.str "a@x.com"] rfl rfl (by decide) (.str "a@x.com") p_ax (by decide)
    p_ax_norm rfl rfl rfl rfl

/-- Claim C6, counterexample: applying the normalization rules to a record
already in output shape is not a no-op — it fails at once with the
`KeyError` of line 131's unconditional `pop('Email')`. -/
theorem c6_counterexample :
    normalize_user c1_output = .error (.keyError "Email") ∧
    normalize_user c1_output ≠ .ok c1_output := by
  refine ⟨rfl, fun hcontra => ?_⟩
  rw [show normalize_user c1_output = .error (.keyError "Email") from rfl] at hcontra
  exact Except.noConfusion hcontra

/-- Claim C6, as amended: the rename/derive rules are not idempotent —
applied to any record lacking the source key `Email` (in particular any
record already in the normalized output shape) they fail with
`KeyError 'Email'` instead of leaving the record unchanged. -/
theorem c6_normalization_not_reapplicable {d : Dict} (h : dget "Email" d = none) :
    normalize_user d = .error (.keyError "Email") :=
  normalize_user_noEmail h

/-- Claim C6, witness: reapplying normalization to the concrete output
record fails with the Email `KeyError`. -/
theorem c6_witness : normalize_user c1_output = .error (.keyError "Email") :=
  @c6_normalization_not_reapplicable c1_output rfl

/-- Claim C7: for every profile record with a string `Id`, the normalized
`id` is the `Id` stripped of exactly the fixed `auth0|` tag when present
(`auth0|` followed by `t` maps to `t`), and passed through unchanged when the
tag is absent — no other prefix is stripped. -/
theorem c7_id_prefix_strip {u nu : Dict} (h : normalize_user u = .ok nu) {s : String}
    (hid : dget "Id" u = some (.str s)) :
    dget "id" nu = some (.str (strip_auth0_id s)) ∧
    (∀ t : String, s = "auth0|" ++ t → strip_auth0_id s = t) ∧
    ("auth0|".data.isPrefixOf s.data = false → strip_auth0_id s = s) := by
  refine ⟨normalize_id_field h hid, ?_, ?_⟩
  · intro t ht
    subst ht
    unfold strip_auth0_id
    rw [show ("auth0|" ++ t).data = "auth0|".data ++ t.data from rfl]
    rw [if_pos (List.isPrefixOf_iff_prefix.mpr (List.prefix_append _ _))]
    rw [show (6 : Nat) = "auth0|".data.length from rfl, List.drop_left]
  · intro hnp
    unfold strip_auth0_id
    rw [if_neg (by simp [hnp])]

/-- Claim C7, witness: `auth0|abc123` maps to `abc123` in the normalized
record of a concrete profile. -/
theorem c7_witness :
    dget "id" p_abc_norm = some (.str (strip_auth0_id "auth0|abc123")) ∧
    (∀ t : String, "auth0|abc123" = "auth0|" ++ t → strip_auth0_id "auth0|abc123" = t) ∧
    ("auth0|".data.isPrefixOf "auth0|abc123".data = false →
      strip_auth0_id "auth0|abc123" = "auth0|abc123") :=
  @c7_id_prefix_strip p_abc p_abc_norm rfl "auth0|abc123" rfl

/-- Claim C8, counterexample: with an empty profile set the run exits
successfully but prints nothing on the primary output channel — the early
`exit(0)` at line 116 happens before line 169's `print`, so the primary
output is not the empty JSON array the claim states. -/
theorem c8_counterexample :
    create_auth0_import [] [c_ax] = .noUsersExit ∧
    exit_code (create_auth0_import [] [c_ax]) = 0 ∧
    primary_output (create_auth0_import [] [c_ax]) ≠ some [] :=
  ⟨rfl, rfl, by decide⟩

/-- Claim C8, as amended: given an empty profile set (with any credential
set) the run terminates with success status and emits nothing on the primary
output channel (only the stderr diagnostic), rather than an empty JSON
array. -/
theorem c8_empty_profile_no_op (hashRecords : List Dict) :
    create_auth0_import [] hashRecords = .noUsersExit ∧
    exit_code (create_auth0_import [] hashRecords) = 0 ∧
    primary_output (create_auth0_import [] hashRecords) = none :=
  ⟨rfl, rfl, rfl⟩

/-- Claim C9: every record the reconciliation appends to the output still
contains the capitalized `Connection` key, with value equal to the inferred
local-store name, in addition to the lower-cased `connection` key —
normalization copies the value instead of removing the source field. -/
theorem c9_connection_key_retained {hashIdx pIdx : Index} {db : Val}
    {out : List Dict} {miss : List Val}
    (hdb : get_auth0_db_name hashIdx = .ok db)
    (hrun : reconcile db hashIdx pIdx = .ok (out, miss))
    {r : Dict} (hr : r ∈ out) :
    dget "Connection" r = some db ∧ dget "connection" r = some db := by
  obtain ⟨e, u, m, hmem, hp⟩ := reconcile_out_elim hrun hr
  obtain ⟨nu, hnorm, hconn, hcase⟩ := process_user_ok_some hp
  have hconn_u : dget "Connection" u = some db := by
    rw [← normalize_preserves_Connection hnorm, hconn]
  have hlc : dget "connection" nu = some db := by
    rw [normalize_connection_field hnorm, hconn_u]
    rfl
  rcases hcase with ⟨hinfo, ph, hlook, hph, hre, hm⟩ | ⟨hlook, hre, hm⟩
  · subst hre
    refine ⟨?_, ?_⟩
    · rw [dget_dset]
      simpa using hconn
    · rw [dget_dset]
      simpa using hlc
  · subst hre
    exact ⟨hconn, hlc⟩

/-- Claim C9, witness at the concrete scenario: the output record keeps both
`Connection` and `connection`, both equal to the local-store name. -/
theorem c9_witness :
    dget "Connection" c1_output = some (.str "Local") ∧
    dget "connection" c1_output = some (.str "Local") :=
  @c9_connection_key_retained [(.str "a@x.com", c_ax)] [(.str "a@x.com", p_ax)]
    (.str "Local") [c1_output] [] rfl rfl c1_output (by decide)

/-- Claim C10: passing the aggregate NDJSON validity check does not make the
per-line parse of the indexer infallible — a single line holding two
comma-separated JSON objects validates as an aggregate (the commas merge
into the array syntax) yet fails to parse as one JSON value on its own, so
the indexing step's decode-error branch stays reachable after validation. -/
theorem c10_validation_gap :
    verify_valid_ndjson_lines ["\x7b\"a\":1\x7d,\x7b\"b\":2\x7d"] = true ∧
    (json_loads "\x7b\"a\":1\x7d,\x7b\"b\":2\x7d").isNone = true :=
  ⟨rfl, rfl⟩

end Auth0
